import Mathlib

/-!
Verification of `src/hensel/hensel.py` (Hensel lifting of modular square
roots).  The Python functions `_inv` and `hensel` are embedded shallowly:

* Python `int` values become `Int`; the stray `float` values produced by
  `prime ** (exponent - 2)` when `exponent < 2` are tracked by `PyNum`,
  whose arithmetic follows Python type propagation (`int` with `float`
  gives `float`, converting the `int` operand via `pyfloat`, which raises
  `OverflowError` beyond the double range exactly as CPython does).
  In-range float values are modelled as exact rationals, which is faithful
  for every observable decision: CPython compares an `int` with a `float`
  exactly without conversion, the only floats compared are the exactly
  representable 0.25, 0.5 and 0.75, and a float candidate raises
  `TypeError` in the three-argument `pow` whatever its value is.
* Raised exceptions become `Except.error` values of type `PyErr`.
* Python `%` and `//` on integers with a positive right operand agree with
  `Int.emod` and `Int.fdiv`; the zero-divisor cases raise, which the
  embeddings `pymod`, `pyfloordiv` and `pypow3` make explicit.
-/

/-- Exceptions that the embedded code can raise. -/
inductive PyErr where
  | typeError (msg : String) : PyErr
  | valueError (msg : String) : PyErr
  | overflowError (msg : String) : PyErr
  | zeroDivisionError : PyErr
deriving DecidableEq

/-- A Python numeric value: an `int`, or a `float` (modelled exactly). -/
inductive PyNum where
  | int : Int → PyNum
  | float : ℚ → PyNum
deriving DecidableEq

/-- The rational value of a `PyNum`. -/
def PyNum.toRat : PyNum → ℚ
  | .int n => (n : ℚ)
  | .float q => q

/-- The magnitude bound of CPython int-to-float conversion, as a literal so
that kernel reduction works on it: `floatConvLimit_eq` below proves it equals
`2 ^ 1024 - 2 ^ 970`. -/
def floatConvLimit : Nat :=
  179769313486231580793728971405303415079934132710037826936173778980444968292764750946649017977587207096330286416692887910946555547851940402630657488671505820681908902000708383676273854845817711531764475730270069855571366959622842914819860834936475292719074168444365510704342711559699508093042880177904174497792

/-- The conversion bound written with powers of two. -/
theorem floatConvLimit_eq : floatConvLimit = 2 ^ 1024 - 2 ^ 970 := by
  have h1 : (2:ℕ) ^ 1024 = ((2:ℕ) ^ 128) ^ 8 := by rw [← pow_mul]
  have h2 : (2:ℕ) ^ 970 = ((2:ℕ) ^ 97) ^ 10 := by rw [← pow_mul]
  rw [floatConvLimit, h1, h2]
  norm_num

/-- CPython `PyLong_AsDouble`, used whenever a binary arithmetic operation
mixes an `int` with a `float`: converting an `int` whose magnitude rounds
to infinity raises `OverflowError`.  The largest finite double is
`2 ^ 1024 - 2 ^ 971`, and round-to-nearest-even sends every integer of
magnitude at least `2 ^ 1024 - 2 ^ 970` to infinity, so the conversion
succeeds exactly on `|n| < 2 ^ 1024 - 2 ^ 970`.  Within that range the
value is modelled as the exact rational `n`; the rounding this ignores is
irrelevant here because no converted value ever flows into a comparison
(CPython compares `int` with `float` exactly, without conversion) and a
`float` candidate raises `TypeError` in `pow` whatever its value is. -/
def pyfloat (n : Int) : Except PyErr ℚ :=
  if n.natAbs < floatConvLimit then Except.ok (n : ℚ)
  else Except.error (PyErr.overflowError "int too large to convert to float")

/-- Python `+` on numbers: `int + int` is `int`; a mixed operation converts
the `int` operand to `float` (possibly raising `OverflowError`). -/
def PyNum.add : PyNum → PyNum → Except PyErr PyNum
  | .int a, .int b => Except.ok (.int (a + b))
  | .int a, .float q => Except.bind (pyfloat a) fun x => Except.ok (.float (x + q))
  | .float q, .int b => Except.bind (pyfloat b) fun x => Except.ok (.float (q + x))
  | .float q, .float r => Except.ok (.float (q + r))

/-- Python `-` on numbers: `int - int` is `int`; a mixed operation converts
the `int` operand to `float` (possibly raising `OverflowError`). -/
def PyNum.sub : PyNum → PyNum → Except PyErr PyNum
  | .int a, .int b => Except.ok (.int (a - b))
  | .int a, .float q => Except.bind (pyfloat a) fun x => Except.ok (.float (x - q))
  | .float q, .int b => Except.bind (pyfloat b) fun x => Except.ok (.float (q - x))
  | .float q, .float r => Except.ok (.float (q - r))

/-- Python `*` on numbers: `int * int` is `int`; a mixed operation converts
the `int` operand to `float` (possibly raising `OverflowError`). -/
def PyNum.mul : PyNum → PyNum → Except PyErr PyNum
  | .int a, .int b => Except.ok (.int (a * b))
  | .int a, .float q => Except.bind (pyfloat a) fun x => Except.ok (.float (x * q))
  | .float q, .int b => Except.bind (pyfloat b) fun x => Except.ok (.float (q * x))
  | .float q, .float r => Except.ok (.float (q * r))

/-- Python `<` on numbers.  CPython compares an `int` with a `float`
exactly and without converting the `int` (`float_richcompare`), so the
comparison never raises and is modelled by the exact rational order. -/
def PyNum.lt (a b : PyNum) : Prop := a.toRat < b.toRat

instance (a b : PyNum) : Decidable (a.lt b) :=
  inferInstanceAs (Decidable (a.toRat < b.toRat))

/-- A Python value appearing as an argument to or result of `hensel`:
an integer, one of the non-integer argument types exercised by the
doctests, or `None` (the fall-through result of the candidate loop). -/
inductive PyVal where
  | int : Int → PyVal
  | str : String → PyVal
  | dict : PyVal
  | list : PyVal
  | none : PyVal
deriving DecidableEq

/-- The Python type name of a `PyVal`, as used in error messages. -/
def typeName : PyVal → String
  | .int _ => "int"
  | .str _ => "str"
  | .dict => "dict"
  | .list => "list"
  | .none => "NoneType"

/-- Whether a `PyVal` is an integer (Python `isinstance(v, int)`). -/
def PyVal.isInt : PyVal → Bool
  | .int _ => true
  | _ => false

/-- Python `a % m` on integers: raises `ZeroDivisionError` when `m == 0`;
for the nonnegative moduli used here it agrees with `Int.emod`. -/
def pymod (a m : Int) : Except PyErr Int :=
  if m = 0 then Except.error PyErr.zeroDivisionError else Except.ok (a % m)

/-- Python `a // m` on integers: raises `ZeroDivisionError` when `m == 0`;
otherwise floor division, i.e. `Int.fdiv`. -/
def pyfloordiv (a m : Int) : Except PyErr Int :=
  if m = 0 then Except.error PyErr.zeroDivisionError else Except.ok (a.fdiv m)

/-- Python three-argument `pow(b, e, m)` for an integer base: raises
`ValueError` when `m == 0`, otherwise reduces modulo `m`. -/
def pypow3 (b : Int) (e : Nat) (m : Int) : Except PyErr Int :=
  if m = 0 then Except.error (PyErr.valueError "pow() 3rd argument cannot be 0")
  else Except.ok (b ^ e % m)

/-- Python `b ** e` for an integer base (here always `2`): an `int` when
the exponent is nonnegative, and a `float` otherwise. -/
def pyPow (b e : Int) : PyNum :=
  if 0 ≤ e then PyNum.int (b ^ e.toNat) else PyNum.float ((b : ℚ) ^ e)

/-- Modelled from the spec: the external `egcd` package used by `_inv` is
not part of this repository.  Following section 4.1 of the specification it
returns `(g, s, t)` with `a * s + m * t = g = gcd(a, m)`, which is exactly
what `Int.gcd`, `Int.gcdA` and `Int.gcdB` provide. -/
def egcd (a m : Int) : Int × Int × Int := (Int.gcd a m, Int.gcdA a m, Int.gcdB a m)

/-- The function `_inv` of `hensel.py`: `egcd(a, m)[1] % m`. -/
def _inv (a m : Int) : Except PyErr Int := pymod (egcd a m).2.1 m

/-- The candidate loop of the `prime == 2` branch of `hensel`: for each
candidate in order, test `pow(c, 2, m1) == pow(c, 2, m2)` and return the
first candidate passing the test; return `None` after the loop.  A `float`
candidate makes the three-argument `pow` raise `TypeError`. -/
def powCheckList (m1 m2 : Int) : List PyNum → Except PyErr PyVal
  | [] => Except.ok PyVal.none
  | c :: rest =>
    match c with
    | .float _ =>
      Except.error (PyErr.typeError
        "pow() 3rd argument not allowed unless all arguments are integers")
    | .int n =>
      if m1 = 0 then Except.error (PyErr.valueError "pow() 3rd argument cannot be 0")
      else if m2 = 0 then Except.error (PyErr.valueError "pow() 3rd argument cannot be 0")
      else if n ^ 2 % m1 = n ^ 2 % m2 then Except.ok (PyVal.int n)
      else powCheckList m1 m2 rest

/-- The body of `hensel(root, prime, exponent)` after the three `isinstance`
checks (which live in `henselPy`), mirroring `hensel.py` line by line. -/
def hensel (root prime exponent : Int) : Except PyErr PyVal :=
  if prime < 0 then
    Except.error (PyErr.valueError "prime must be a positive integer")
  else if exponent < 0 then
    Except.error (PyErr.valueError "exponent must be a nonnegative integer")
  else
    let prime_to_exponent : Int := prime ^ exponent.toNat
    let prime_to_exponent_plus_one : Int := prime_to_exponent * prime
    if prime = 2 then
      if exponent = 1 then Except.ok (PyVal.int 1)
      else
        let prime_to_exponent_minus_two : PyNum := pyPow prime (exponent - 2)
        Except.bind (prime_to_exponent_minus_two.mul (PyNum.int prime))
          fun prime_to_exponent_minus_one =>
        Except.bind
          (if (PyNum.int root).lt prime_to_exponent_minus_two then
            Except.bind (prime_to_exponent_minus_one.sub (PyNum.int root)) fun c2 =>
              Except.ok [PyNum.int root, c2]
          else if (PyNum.int root).lt (pyPow prime (exponent - 1)) then
            Except.bind (prime_to_exponent_minus_one.add (PyNum.int root)) fun c2 =>
              Except.ok [PyNum.int (prime_to_exponent - root), c2]
          else
            Except.bind
              (prime_to_exponent_minus_one.add prime_to_exponent_minus_two)
              fun third_boundary =>
            if (PyNum.int root).lt third_boundary then
              Except.bind ((PyNum.int root).sub prime_to_exponent_minus_one)
                fun offset =>
              Except.bind ((PyNum.int prime_to_exponent).add offset) fun c1 =>
                Except.ok [c1, PyNum.int (prime_to_exponent_plus_one - root)]
            else
              Except.bind ((PyNum.int prime_to_exponent_plus_one).add
                  prime_to_exponent_minus_one) fun shifted =>
              Except.bind (shifted.sub (PyNum.int root)) fun c1 =>
                Except.ok [c1,
                  PyNum.int (prime_to_exponent_plus_one - prime_to_exponent + root)])
          fun candidates =>
        powCheckList prime_to_exponent prime_to_exponent_plus_one candidates
    else
      Except.bind (_inv root prime) fun inv_root =>
      Except.bind (_inv 2 prime) fun inv_two =>
      Except.bind (pymod (inv_root * inv_two) prime) fun invs_mod =>
      Except.bind (pypow3 root 2 prime_to_exponent) fun root_sq_mod =>
      Except.bind (pyfloordiv (root_sq_mod - root ^ 2) prime_to_exponent) fun delta =>
      Except.bind (pymod delta prime) fun delta_mod =>
      Except.bind (pymod (invs_mod * delta_mod) prime) fun multiple =>
      Except.bind (pymod (root + multiple * prime_to_exponent)
        (prime * prime_to_exponent)) fun lifted =>
      Except.ok (PyVal.int lifted)

/-- The full `hensel` entry point: the three `isinstance` checks in their
source order (`root`, then `prime`, then `exponent`), then the body. -/
def henselPy (root prime exponent : PyVal) : Except PyErr PyVal :=
  match root with
  | .int r =>
    match prime with
    | .int p =>
      match exponent with
      | .int e => hensel r p e
      | _ =>
        Except.error (PyErr.typeError
          ("\x27" ++ typeName exponent ++ "\x27 object cannot be interpreted as an integer"))
    | _ =>
      Except.error (PyErr.typeError
        ("\x27" ++ typeName prime ++ "\x27 object cannot be interpreted as an integer"))
  | _ =>
    Except.error (PyErr.typeError
      ("\x27" ++ typeName root ++ "\x27 object cannot be interpreted as an integer"))

/-- Iterated lifting: `henselChain p root start n` is `r_{start+n}` in the
iteration `r_start = root`, `r_{i+1} = hensel(r_i, p, i)`, with each step
fed back through the public entry point (so a `None` result would raise a
`TypeError` at the next step, as in Python). -/
def henselChain (prime root : Int) (start : Nat) : Nat → Except PyErr PyVal
  | 0 => Except.ok (PyVal.int root)
  | n + 1 =>
    Except.bind (henselChain prime root start n) fun v =>
      henselPy v (PyVal.int prime) (PyVal.int (start + n))

/-- The integer candidate pair constructed by the `prime == 2` branch of
`hensel` for `exponent = f + 2` (where `prime_to_exponent_minus_two = 2^f`
is an integer), zone by zone as in the source. -/
def cands (root : Int) (f : Nat) : List Int :=
  if root < 2 ^ f then
    [root, 2 ^ (f + 1) - root]
  else if root < 2 ^ (f + 1) then
    [2 ^ (f + 2) - root, 2 ^ (f + 1) + root]
  else if root < 2 ^ (f + 1) + 2 ^ f then
    [2 ^ (f + 2) + (root - 2 ^ (f + 1)), 2 ^ (f + 3) - root]
  else
    [2 ^ (f + 3) + 2 ^ (f + 1) - root, 2 ^ (f + 3) - 2 ^ (f + 2) + root]

instance {ε α : Type} [DecidableEq ε] [DecidableEq α] : DecidableEq (Except ε α) := fun a b =>
  match a, b with
  | .ok x, .ok y =>
    if h : x = y then .isTrue (by rw [h]) else .isFalse (by intro hx; cases hx; exact h rfl)
  | .error x, .error y =>
    if h : x = y then .isTrue (by rw [h]) else .isFalse (by intro hx; cases hx; exact h rfl)
  | .ok _, .error _ => .isFalse (by intro h; cases h)
  | .error _, .ok _ => .isFalse (by intro h; cases h)

example : hensel 3 2 3 = Except.ok (PyVal.int 7) := by decide
example : hensel 3 2 2 = Except.ok (PyVal.int 7) := by decide
example : hensel 2 2 1 = Except.ok (PyVal.int 1) := by decide
example : hensel 5 0 3 = Except.error PyErr.zeroDivisionError := by decide
example : hensel 4 2 4 = Except.ok PyVal.none := by decide

/-! Basic reduction lemmas for the embedding. -/

@[simp]
theorem ebind_ok {α β : Type} (a : α) (f : α → Except PyErr β) :
    Except.bind (Except.ok a) f = f a := rfl

@[simp]
theorem ebind_error {α β : Type} (e : PyErr) (f : α → Except PyErr β) :
    Except.bind (Except.error e : Except PyErr α) f = Except.error e := rfl

@[simp]
theorem PyNum.add_int (a b : Int) :
    (PyNum.int a).add (PyNum.int b) = Except.ok (PyNum.int (a + b)) := rfl

@[simp]
theorem PyNum.sub_int (a b : Int) :
    (PyNum.int a).sub (PyNum.int b) = Except.ok (PyNum.int (a - b)) := rfl

@[simp]
theorem PyNum.mul_int (a b : Int) :
    (PyNum.int a).mul (PyNum.int b) = Except.ok (PyNum.int (a * b)) := rfl

theorem pyfloat_ok {n : Int} (h : n.natAbs < floatConvLimit) :
    pyfloat n = Except.ok (n : ℚ) := by
  rw [pyfloat, if_pos h]

theorem pyfloat_overflow {n : Int} (h : ¬ n.natAbs < floatConvLimit) :
    pyfloat n =
      Except.error (PyErr.overflowError "int too large to convert to float") := by
  rw [pyfloat, if_neg h]

@[simp]
theorem PyNum.lt_int (a b : Int) : (PyNum.int a).lt (PyNum.int b) ↔ a < b := by
  simp [PyNum.lt, PyNum.toRat]

@[simp]
theorem pyPow_natCast (b : Int) (n : Nat) : pyPow b (n : Int) = PyNum.int (b ^ n) := by
  simp [pyPow]

theorem pymod_ok {m : Int} (h : m ≠ 0) (a : Int) : pymod a m = Except.ok (a % m) := by
  simp [pymod, h]

theorem pyfloordiv_ok {m : Int} (h : m ≠ 0) (a : Int) :
    pyfloordiv a m = Except.ok (a.fdiv m) := by
  simp [pyfloordiv, h]

theorem pypow3_ok {m : Int} (h : m ≠ 0) (b : Int) (e : Nat) :
    pypow3 b e m = Except.ok (b ^ e % m) := by
  simp [pypow3, h]

theorem inv_ok {m : Int} (h : m ≠ 0) (a : Int) :
    _inv a m = Except.ok (Int.gcdA a m % m) := by
  simp [_inv, egcd, pymod, h]

example : hensel 4 7 1 = Except.ok (PyVal.int 39) := by
  simp only [hensel, if_neg (show ¬ (7:Int) < 0 by norm_num),
    if_neg (show ¬ (1:Int) < 0 by norm_num), if_neg (show ¬ (7:Int) = 2 by norm_num),
    inv_ok (show (7:Int) ≠ 0 by norm_num), ebind_ok,
    pymod_ok (show (7:Int) ≠ 0 by norm_num),
    pypow3_ok (show (7:Int) ^ (1:Int).toNat ≠ 0 by norm_num),
    pyfloordiv_ok (show (7:Int) ^ (1:Int).toNat ≠ 0 by norm_num),
    pymod_ok (show (7:Int) * 7 ^ (1:Int).toNat ≠ 0 by norm_num)]
  norm_num [Int.gcdA, Nat.gcdA, Nat.xgcd, Nat.xgcdAux_rec, Nat.xgcd_zero_left]
  decide

example : hensel 2 7 2 = Except.ok (PyVal.int 2) := by
  simp only [hensel, if_neg (show ¬ (7:Int) < 0 by norm_num),
    if_neg (show ¬ (2:Int) < 0 by norm_num), if_neg (show ¬ (7:Int) = 2 by norm_num),
    inv_ok (show (7:Int) ≠ 0 by norm_num), ebind_ok,
    pymod_ok (show (7:Int) ≠ 0 by norm_num),
    pypow3_ok (show (7:Int) ^ (2:Int).toNat ≠ 0 by norm_num),
    pyfloordiv_ok (show (7:Int) ^ (2:Int).toNat ≠ 0 by norm_num),
    pymod_ok (show (7:Int) * 7 ^ (2:Int).toNat ≠ 0 by norm_num)]
  norm_num [Int.gcdA, Nat.gcdA, Nat.xgcd, Nat.xgcdAux_rec, Nat.xgcd_zero_left]
  decide

/-- Bezout: when `gcd(a, m) = 1`, the value returned by `_inv` is a modular
inverse of `a` modulo `m`. -/
theorem inv_modEq_one {a m : Int} (h : Int.gcd a m = 1) :
    a * (Int.gcdA a m % m) ≡ 1 [ZMOD m] := by
  have hb := Int.gcd_eq_gcd_ab a m
  rw [h] at hb
  have h1 : a * Int.gcdA a m ≡ 1 [ZMOD m] := by
    rw [Int.modEq_iff_dvd]
    refine ⟨Int.gcdB a m, by push_cast at hb; linarith⟩
  exact ((Int.mod_modEq (Int.gcdA a m) m).mul_left a).trans h1

/-- C8, amended: the returned value is the unique `x` in `[0, m)` with
`a * x ≡ 1 (mod m)` (stated as `a * x % m = 1 % m`, which for `m >= 2`
is the same as `a * x % m = 1`). -/
theorem C8_inv_amended (a m : Int) (hm : 1 ≤ m) (h : Int.gcd a m = 1) :
    ∃ x : Int, _inv a m = Except.ok x ∧ 0 ≤ x ∧ x < m ∧ a * x % m = 1 % m ∧
      ∀ y : Int, 0 ≤ y → y < m → a * y % m = 1 % m → y = x := by
  have hm0 : m ≠ 0 := by omega
  refine ⟨Int.gcdA a m % m, inv_ok hm0 a, Int.emod_nonneg _ hm0,
    Int.emod_lt_of_pos _ (by omega), inv_modEq_one h, ?_⟩
  intro y hy0 hym hy
  have hxy : a * y ≡ a * (Int.gcdA a m % m) [ZMOD m] :=
    Int.ModEq.trans hy (inv_modEq_one h).symm
  have hcancel : y ≡ Int.gcdA a m % m [ZMOD m / Int.gcd m a] :=
    Int.ModEq.cancel_left_div_gcd (by omega) hxy
  rw [Int.gcd_comm m a, h] at hcancel
  have hcancel₂ : y ≡ Int.gcdA a m % m [ZMOD m] := by simpa using hcancel
  have hyx : y % m = Int.gcdA a m % m % m := hcancel₂.eq
  rw [Int.emod_eq_of_lt hy0 hym, Int.emod_emod_of_dvd _ (dvd_refl m)] at hyx
  exact hyx

/-- C8 counterexample: at `a = 1`, `m = 1` the preconditions hold and
`_inv` returns `0`, but no `x` satisfies `(a * x) mod m == 1`, since
every value reduces to `0` modulo `1`. -/
theorem C8_counterexample :
    Int.gcd 1 1 = 1 ∧ _inv 1 1 = Except.ok 0 ∧ ¬ ((1 * 0 : Int) % 1 = 1) := by
  refine ⟨by decide, ?_, by decide⟩
  simp [_inv, egcd, pymod, Int.emod_one]

/-- Witness for C8 as amended, at `a = 0`, `m = 1`. -/
theorem C8_inv_amended_witness :
    _inv 0 1 = Except.ok 0 ∧ (0 * 0 : Int) % 1 = 1 % 1 := by
  obtain ⟨x, hx, hx0, hxlt, hmod, _⟩ := C8_inv_amended 0 1 (by norm_num) (by decide)
  have hx0' : x = 0 := by omega
  rw [hx0'] at hx hmod
  exact ⟨hx, hmod⟩

/-- Correctness of the general (odd-prime) branch: for `p` at least 3 with
`gcd(2, p) = gcd(root, p) = 1` and `exponent` at least 1, `hensel` returns a
lift congruent to `root` modulo `p ^ e` whose square reduces correctly at
both moduli. -/
theorem hensel_odd (p root : Int) (e : Nat) (hp3 : 3 ≤ p)
    (h2 : Int.gcd 2 p = 1) (hr : Int.gcd root p = 1) (he : 1 ≤ e) :
    ∃ L : Int, hensel root p (e : Int) = Except.ok (PyVal.int L) ∧
      L % p ^ e = root % p ^ e ∧
      L ^ 2 % p ^ e = root ^ 2 % p ^ e ∧
      L ^ 2 % p ^ (e + 1) = (root ^ 2 % p ^ e) % p ^ (e + 1) := by
  obtain ⟨j, rfl⟩ : ∃ j, e = j + 1 := ⟨e - 1, by omega⟩
  have hp0 : p ≠ 0 := by omega
  have hplt : ¬ (p < 0) := by omega
  have henot : ¬ ((j + 1 : Nat) : Int) < 0 := by omega
  have hp2 : ¬ (p = 2) := by omega
  have hq0 : p ^ (j + 1) ≠ 0 := pow_ne_zero _ hp0
  have hpq0 : p * p ^ (j + 1) ≠ 0 := mul_ne_zero hp0 hq0
  have hev : hensel root p ((j + 1 : Nat) : Int) = Except.ok (PyVal.int
      ((root + (Int.gcdA root p % p * (Int.gcdA 2 p % p) % p *
        (((root ^ 2 % p ^ (j + 1)) - root ^ 2).fdiv (p ^ (j + 1)) % p) % p) * p ^ (j + 1)) %
        (p * p ^ (j + 1)))) := by
    simp only [hensel, if_neg hplt, if_neg henot, if_neg hp2, Int.toNat_natCast,
      inv_ok hp0, ebind_ok, pymod_ok hp0, pypow3_ok hq0, pyfloordiv_ok hq0,
      pymod_ok hpq0]
  set q : Int := p ^ (j + 1) with hqdef
  set i1 : Int := Int.gcdA root p % p with hi1def
  set i2 : Int := Int.gcdA 2 p % p with hi2def
  set s : Int := root ^ 2 % q with hsdef
  set d : Int := (s - root ^ 2).fdiv q with hddef
  set M : Int := i1 * i2 % p * (d % p) % p with hMdef
  set X : Int := root + M * q with hXdef
  -- the returned value is congruent to X = root + M * q modulo p * q
  have hLX : X % (p * q) ≡ X [ZMOD p * q] := Int.mod_modEq X (p * q)
  have hqdvd : q ∣ p * q := ⟨p, mul_comm p q⟩
  have hXroot : X ≡ root [ZMOD q] := by
    rw [Int.modEq_iff_dvd]
    exact ⟨-M, by rw [hXdef]; ring⟩
  have hLroot : X % (p * q) ≡ root [ZMOD q] := (hLX.of_dvd hqdvd).trans hXroot
  -- exact division defining d
  have hsd : s - root ^ 2 = q * (-(root ^ 2 / q)) := by
    rw [hsdef, Int.emod_def]; ring
  have hqd : q * d = s - root ^ 2 := by
    rw [hddef, hsd, Int.mul_fdiv_cancel_left _ hq0]
  -- Bezout inverses
  have hir : root * i1 ≡ 1 [ZMOD p] := inv_modEq_one hr
  have hi2 : 2 * i2 ≡ 1 [ZMOD p] := inv_modEq_one h2
  have hM : M ≡ i1 * i2 * d [ZMOD p] := by
    rw [hMdef]
    exact (Int.mod_modEq _ p).trans ((Int.mod_modEq (i1 * i2) p).mul (Int.mod_modEq d p))
  have hkey : 2 * root * M ≡ d [ZMOD p] := by
    have hmul : root * i1 * (2 * i2) * d ≡ 1 * 1 * d [ZMOD p] :=
      (hir.mul hi2).mul_right d
    calc 2 * root * M ≡ 2 * root * (i1 * i2 * d) [ZMOD p] := hM.mul_left (2 * root)
      _ = root * i1 * (2 * i2) * d := by ring
      _ ≡ 1 * 1 * d [ZMOD p] := hmul
      _ = d := by ring
  obtain ⟨w, hw⟩ : p ∣ d - 2 * root * M := hkey.dvd
  have hq2 : q * q = p * q * p ^ j := by rw [hqdef]; ring
  have hXs : X ^ 2 ≡ s [ZMOD p * q] := by
    rw [Int.modEq_iff_dvd]
    refine ⟨w - M ^ 2 * p ^ j, ?_⟩
    have hd2 : d = p * w + 2 * root * M := by linarith
    have hs2 : s = root ^ 2 + q * d := by linarith
    rw [hXdef, hs2, hd2]
    linear_combination (-(M ^ 2) : Int) * hq2
  have hfin : (X % (p * q)) ^ 2 ≡ s [ZMOD p * q] := (hLX.pow 2).trans hXs
  have hppow : p ^ (j + 1 + 1) = p * q := by rw [hqdef]; ring
  refine ⟨X % (p * q), hev, hLroot, (hLroot.pow 2).eq, ?_⟩
  rw [hppow]
  exact hfin.eq

/-! The `prime == 2` branch with `exponent = f + 2`. -/

theorem hensel_two_eq (root : Int) (f : Nat) :
    hensel root 2 ((f : Int) + 2) =
      powCheckList (2 ^ (f + 2)) (2 ^ (f + 3)) ((cands root f).map PyNum.int) := by
  have h1 : ¬ ((2:Int) < 0) := by omega
  have h2 : ¬ ((f : Int) + 2 < 0) := by omega
  have h3 : ¬ ((f : Int) + 2 = 1) := by omega
  have ht : ((f : Int) + 2).toNat = f + 2 := by omega
  have ha : (f : Int) + 2 - 2 = ((f : Nat) : Int) := by ring
  have hb : (f : Int) + 2 - 1 = ((f + 1 : Nat) : Int) := by push_cast; ring
  have hcc : f + 2 + 1 = f + 3 := by omega
  simp only [hensel, if_neg h1, if_neg h2, if_pos rfl, if_neg h3, ht, ha, hb, hcc,
    pyPow_natCast, PyNum.mul_int, PyNum.add_int, PyNum.sub_int, PyNum.lt_int,
    ebind_ok, ← pow_succ, cands, apply_ite (List.map PyNum.int), List.map_cons,
    List.map_nil, if_true]
  split_ifs <;> simp only [PyNum.add_int, PyNum.sub_int, ebind_ok]

theorem powCheckList_pair (m1 m2 c₁ c₂ : Int) (h1 : m1 ≠ 0) (h2 : m2 ≠ 0) :
    powCheckList m1 m2 [PyNum.int c₁, PyNum.int c₂] =
      if c₁ ^ 2 % m1 = c₁ ^ 2 % m2 then Except.ok (PyVal.int c₁)
      else if c₂ ^ 2 % m1 = c₂ ^ 2 % m2 then Except.ok (PyVal.int c₂)
      else Except.ok PyVal.none := by
  simp [powCheckList, h1, h2]

theorem cands_pair (root : Int) (f : Nat) :
    ∃ c₁ c₂ t : Int, cands root f = [c₁, c₂] ∧ Odd t ∧ c₁ + c₂ = t * 2 ^ (f + 1) ∧
      (∃ k₁ e₁ : Int, (e₁ = 1 ∨ e₁ = -1) ∧ c₁ = e₁ * root + k₁ * 2 ^ (f + 1)) ∧
      (∃ k₂ e₂ : Int, (e₂ = 1 ∨ e₂ = -1) ∧ c₂ = e₂ * root + k₂ * 2 ^ (f + 1)) := by
  unfold cands
  split_ifs with hz1 hz2 hz3
  · exact ⟨root, 2 ^ (f + 1) - root, 1, rfl, odd_one, by ring,
      ⟨0, 1, Or.inl rfl, by ring⟩, ⟨1, -1, Or.inr rfl, by ring⟩⟩
  · exact ⟨2 ^ (f + 2) - root, 2 ^ (f + 1) + root, 3, rfl, ⟨1, by norm_num⟩, by ring,
      ⟨2, -1, Or.inr rfl, by ring⟩, ⟨1, 1, Or.inl rfl, by ring⟩⟩
  · exact ⟨2 ^ (f + 2) + (root - 2 ^ (f + 1)), 2 ^ (f + 3) - root, 5, rfl, ⟨2, by norm_num⟩,
      by ring, ⟨1, 1, Or.inl rfl, by ring⟩, ⟨4, -1, Or.inr rfl, by ring⟩⟩
  · exact ⟨2 ^ (f + 3) + 2 ^ (f + 1) - root, 2 ^ (f + 3) - 2 ^ (f + 2) + root, 7, rfl,
      ⟨3, by norm_num⟩, by ring, ⟨5, -1, Or.inr rfl, by ring⟩, ⟨2, 1, Or.inl rfl, by ring⟩⟩

theorem odd_of_shift {root c k e1 : Int} {f : Nat} (he : e1 = 1 ∨ e1 = -1)
    (hc : c = e1 * root + k * 2 ^ (f + 1)) (hodd : Odd root) : Odd c := by
  have h2 : c % 2 = e1 * root % 2 := by
    have hdvd : (2:Int) ∣ e1 * root - c := ⟨-(k * 2 ^ f), by rw [hc]; ring⟩
    exact (Int.modEq_iff_dvd.mpr hdvd).eq
  rcases he with h | h <;> rw [Int.odd_iff, h2, h]
  · rw [one_mul]; exact Int.odd_iff.mp hodd
  · rw [neg_one_mul]; exact Int.odd_iff.mp hodd.neg

theorem sq_modeq_of_shift {root c k e1 : Int} {f : Nat} (he : e1 = 1 ∨ e1 = -1)
    (hc : c = e1 * root + k * 2 ^ (f + 1)) :
    c ^ 2 % 2 ^ (f + 2) = root ^ 2 % 2 ^ (f + 2) := by
  have he2 : e1 ^ 2 = 1 := by rcases he with h | h <;> rw [h] <;> norm_num
  have hdvd : (2:Int) ^ (f + 2) ∣ root ^ 2 - c ^ 2 := by
    refine ⟨-(e1 * k * root + k ^ 2 * 2 ^ f), ?_⟩
    rw [hc]
    linear_combination (-(root ^ 2) : Int) * he2
  exact (Int.modEq_iff_dvd.mpr hdvd).eq

theorem odd_sq_mod_eight {c : Int} (h : Odd c) : c ^ 2 % 8 = 1 := by
  obtain ⟨k, hk⟩ := h
  obtain ⟨j, hj⟩ := Int.even_mul_succ_self k
  have hc : c ^ 2 = 1 + 8 * j := by rw [hk]; linear_combination 4 * hj
  rw [hc, Int.add_mul_emod_self_left]
  norm_num

theorem pass_iff_lt (a X : Int) (hX : 0 < X) :
    a % X = a % (2 * X) ↔ a % (2 * X) < X := by
  have h2X : (0:Int) < 2 * X := by omega
  have hmm : a % (2 * X) % X = a % X := Int.emod_emod_of_dvd a ⟨2, by ring⟩
  have hr0 : 0 ≤ a % (2 * X) := Int.emod_nonneg a (by omega)
  have hr2 : a % (2 * X) < 2 * X := Int.emod_lt_of_pos a h2X
  constructor
  · intro h
    by_contra hge
    push_neg at hge
    have hsplit : a % (2 * X) = (a % (2 * X) - X) + X * 1 := by ring
    have hmodsub : (a % (2 * X) - X) % X = a % (2 * X) - X :=
      Int.emod_eq_of_lt (by omega) (by omega)
    have hmod : a % (2 * X) % X = a % (2 * X) - X := by
      conv_lhs => rw [hsplit]
      rw [Int.add_mul_emod_self_left, hmodsub]
    rw [hmm] at hmod
    omega
  · intro h
    rw [← hmm, Int.emod_eq_of_lt hr0 h]

theorem sq_shift (c₁ c₂ t : Int) (g : Nat) (hodd : Odd (t * c₁))
    (hsum : c₁ + c₂ = t * 2 ^ (g + 2)) :
    c₂ ^ 2 % 2 ^ (g + 4) = (c₁ ^ 2 % 2 ^ (g + 4) + 2 ^ (g + 3)) % 2 ^ (g + 4) := by
  obtain ⟨u, hu⟩ := hodd
  have hme : c₂ ^ 2 ≡ c₁ ^ 2 + 2 ^ (g + 3) [ZMOD 2 ^ (g + 4)] := by
    rw [Int.modEq_iff_dvd]
    refine ⟨u + 1 - t ^ 2 * 2 ^ g, ?_⟩
    have hc2 : c₂ = t * 2 ^ (g + 2) - c₁ := by linarith
    rw [hc2]
    linear_combination (2 ^ (g + 3) : Int) * hu
  have hrght : c₁ ^ 2 + 2 ^ (g + 3) ≡ c₁ ^ 2 % 2 ^ (g + 4) + 2 ^ (g + 3)
      [ZMOD 2 ^ (g + 4)] :=
    Int.ModEq.add_right _ (Int.mod_modEq _ _).symm
  exact (hme.trans hrght).eq

theorem one_passes {c₁ c₂ t : Int} {f : Nat} (hodd : Odd c₁) (ht : Odd t)
    (hsum : c₁ + c₂ = t * 2 ^ (f + 1)) :
    c₁ ^ 2 % 2 ^ (f + 2) = c₁ ^ 2 % 2 ^ (f + 3) ∨
    c₂ ^ 2 % 2 ^ (f + 2) = c₂ ^ 2 % 2 ^ (f + 3) := by
  cases f with
  | zero =>
    left
    have h8 : c₁ ^ 2 % 8 = 1 := odd_sq_mod_eight hodd
    have h4 : c₁ ^ 2 % 4 = 1 := by
      have hh := Int.emod_emod_of_dvd (c₁ ^ 2) (by norm_num : (4:Int) ∣ 8)
      rw [← hh, h8]; norm_num
    norm_num [h4, h8]
  | succ g =>
    simp only [show g + 1 + 1 = g + 2 by omega, show g + 1 + 2 = g + 3 by omega,
      show g + 1 + 3 = g + 4 by omega] at hsum ⊢
    have hX : (0:Int) < 2 ^ (g + 3) := by positivity
    have hX4 : (0:Int) < 2 ^ (g + 4) := by positivity
    have h2X : (2:Int) ^ (g + 4) = 2 * 2 ^ (g + 3) := by ring
    have hshift := sq_shift c₁ c₂ t g (ht.mul hodd) hsum
    by_cases hlt : c₁ ^ 2 % 2 ^ (g + 4) < 2 ^ (g + 3)
    · left
      rw [h2X]
      exact (pass_iff_lt (c₁ ^ 2) (2 ^ (g + 3)) hX).mpr (by rw [← h2X]; exact hlt)
    · right
      rw [h2X]
      refine (pass_iff_lt (c₂ ^ 2) (2 ^ (g + 3)) hX).mpr ?_
      rw [← h2X, hshift]
      push_neg at hlt
      have hr2 : c₁ ^ 2 % 2 ^ (g + 4) < 2 ^ (g + 4) := Int.emod_lt_of_pos _ hX4
      have hsplit : c₁ ^ 2 % 2 ^ (g + 4) + 2 ^ (g + 3)
          = (c₁ ^ 2 % 2 ^ (g + 4) - 2 ^ (g + 3)) + 2 ^ (g + 4) * 1 := by ring
      rw [hsplit, Int.add_mul_emod_self_left,
        Int.emod_eq_of_lt (by omega) (by omega)]
      omega

theorem hensel_two_spec (root : Int) (f : Nat) (hodd : Odd root) :
    ∃ L : Int, hensel root 2 ((f : Int) + 2) = Except.ok (PyVal.int L) ∧ Odd L ∧
      L ^ 2 % 2 ^ (f + 2) = root ^ 2 % 2 ^ (f + 2) ∧
      L ^ 2 % 2 ^ (f + 3) = L ^ 2 % 2 ^ (f + 2) := by
  obtain ⟨c₁, c₂, t, hc, ht, hsum, ⟨k₁, e₁, he₁, hc₁⟩, ⟨k₂, e₂, he₂, hc₂⟩⟩ :=
    cands_pair root f
  have hodd₁ : Odd c₁ := odd_of_shift he₁ hc₁ hodd
  have hodd₂ : Odd c₂ := odd_of_shift he₂ hc₂ hodd
  have hm1 : ((2:Int) ^ (f + 2)) ≠ 0 := by positivity
  have hm2 : ((2:Int) ^ (f + 3)) ≠ 0 := by positivity
  have heq : hensel root 2 ((f : Int) + 2) =
      powCheckList (2 ^ (f + 2)) (2 ^ (f + 3)) [PyNum.int c₁, PyNum.int c₂] := by
    rw [hensel_two_eq, hc]
    rfl
  rw [powCheckList_pair _ _ _ _ hm1 hm2] at heq
  rcases one_passes hodd₁ ht hsum with hp | hp
  · exact ⟨c₁, by rw [heq, if_pos hp], hodd₁, sq_modeq_of_shift he₁ hc₁, hp.symm⟩
  · by_cases hp1 : c₁ ^ 2 % 2 ^ (f + 2) = c₁ ^ 2 % 2 ^ (f + 3)
    · exact ⟨c₁, by rw [heq, if_pos hp1], hodd₁, sq_modeq_of_shift he₁ hc₁, hp1.symm⟩
    · exact ⟨c₂, by rw [heq, if_neg hp1, if_pos hp], hodd₂,
        sq_modeq_of_shift he₂ hc₂, hp.symm⟩

theorem not_dvd_of_gcd_one {a p : Int} (h2p : 2 ≤ p) (h : Int.gcd a p = 1) : ¬ p ∣ a := by
  intro hd
  have hg : p ∣ (Int.gcd a p : Int) := Int.dvd_gcd hd dvd_rfl
  rw [h, Nat.cast_one] at hg
  have := Int.le_of_dvd one_pos hg
  omega

theorem gcd_eq_one_of_prime_not_dvd {a p : Int} (hp : Prime p) (h0 : 0 ≤ p)
    (hnd : ¬ p ∣ a) : Int.gcd a p = 1 := by
  have hq : Nat.Prime p.natAbs := Int.prime_iff_natAbs_prime.mp hp
  have hd : Int.gcd a p ∣ p.natAbs := Nat.gcd_dvd_right _ _
  rcases (Nat.dvd_prime hq).mp hd with h1 | h1
  · exact h1
  · exfalso
    apply hnd
    have hga : (↑(Int.gcd a p) : Int) ∣ a := Int.gcd_dvd_left
    rw [h1, Int.natAbs_of_nonneg h0] at hga
    exact hga

theorem gcd_two_eq_one_iff_odd (a : Int) : Int.gcd a 2 = 1 ↔ Odd a := by
  have hb0 : 0 ≤ a % 2 := Int.emod_nonneg a (by norm_num)
  have hb2 : a % 2 < 2 := Int.emod_lt_of_pos a (by norm_num)
  constructor
  · intro h
    rw [Int.odd_iff]
    by_contra hne
    have h0 : a % 2 = 0 := by omega
    have h2 : (2:Int) ∣ a := (Int.dvd_iff_emod_eq_zero).mpr h0
    have hg := Int.dvd_gcd h2 (dvd_refl (2:Int))
    rw [h, Nat.cast_one] at hg
    have := Int.le_of_dvd one_pos hg
    omega
  · intro ho
    have hd : Int.gcd a 2 ∣ 2 := Nat.gcd_dvd_right _ _
    rcases (Nat.dvd_prime Nat.prime_two).mp hd with h | h
    · exact h
    · exfalso
      have hga : (↑(Int.gcd a 2) : Int) ∣ a := Int.gcd_dvd_left
      rw [h] at hga
      have h0 : a % 2 = 0 := (Int.dvd_iff_emod_eq_zero).mp (by exact_mod_cast hga)
      rw [Int.odd_iff] at ho
      omega

theorem hensel_lift_spec (p root : Int) (e : Nat) (hp : Prime p) (h0 : 0 ≤ p)
    (hcop : Int.gcd root p = 1) (he : 1 ≤ e) :
    ∃ L : Int, hensel root p (e : Int) = Except.ok (PyVal.int L) ∧
      Int.gcd L p = 1 ∧
      L ^ 2 % p ^ e = root ^ 2 % p ^ e ∧
      L ^ 2 % p ^ (e + 1) = (root ^ 2 % p ^ e) % p ^ (e + 1) := by
  have hq : Nat.Prime p.natAbs := Int.prime_iff_natAbs_prime.mp hp
  have hp2 : 2 ≤ p := by
    have := hq.two_le
    omega
  by_cases hptwo : p = 2
  · subst hptwo
    have hodd : Odd root := (gcd_two_eq_one_iff_odd root).mp hcop
    have hsqodd : root ^ 2 % 2 = 1 := Int.odd_iff.mp hodd.pow
    rcases Nat.lt_or_ge e 2 with h1 | h2
    · have he1 : e = 1 := by omega
      subst he1
      refine ⟨1, rfl, by decide, ?_, ?_⟩
      · norm_num [hsqodd]
      · norm_num [hsqodd]
    · obtain ⟨f, rfl⟩ : ∃ f, e = f + 2 := ⟨e - 2, by omega⟩
      obtain ⟨L, hL, hoddL, hsq, hpass⟩ := hensel_two_spec root f hodd
      have hcast : ((f + 2 : Nat) : Int) = (f : Int) + 2 := by push_cast; ring
      refine ⟨L, by rw [hcast]; exact hL, (gcd_two_eq_one_iff_odd L).mpr hoddL, hsq, ?_⟩
      have hs0 : 0 ≤ root ^ 2 % 2 ^ (f + 2) := Int.emod_nonneg _ (by positivity)
      have hslt : root ^ 2 % 2 ^ (f + 2) < 2 ^ (f + 2) := Int.emod_lt_of_pos _ (by positivity)
      have hlt3 : (2:Int) ^ (f + 2) < 2 ^ (f + 3) := by
        have hee : (2:Int) ^ (f + 3) = 2 ^ (f + 2) * 2 := by ring
        nlinarith [pow_pos (show (0:Int) < 2 by norm_num) (f + 2)]
      rw [show f + 2 + 1 = f + 3 by omega, hpass, hsq,
        Int.emod_eq_of_lt hs0 (by omega)]
  · have hp3 : 3 ≤ p := by omega
    have h2g : Int.gcd 2 p = 1 := by
      apply gcd_eq_one_of_prime_not_dvd hp h0
      intro hd
      have := Int.le_of_dvd (by norm_num) hd
      omega
    obtain ⟨L, hL, hLr, hsq, hlift⟩ := hensel_odd p root e hp3 h2g hcop he
    refine ⟨L, hL, ?_, hsq, hlift⟩
    apply gcd_eq_one_of_prime_not_dvd hp h0
    intro hd
    have hdvd_pe : p ∣ p ^ e := dvd_pow_self p (by omega)
    have hme : L ≡ root [ZMOD p] := Int.ModEq.of_dvd hdvd_pe hLr
    have hroot : p ∣ root := by
      have hdr := hme.dvd
      have := dvd_add hdr hd
      simpa using this
    exact not_dvd_of_gcd_one hp2 hcop hroot

/-- C1 counterexample: at `root = 2`, `prime = 2`, `exponent = 1` every
precondition of the claim holds (integers, `prime >= 0`, `exponent >= 0`,
`prime` is prime, and the coprimality condition is waived for `prime == 2`),
yet the returned value `1` violates the first half of the claimed invariant:
`1 ^ 2 mod 2 ^ 1 = 1` while `root ^ 2 mod 2 ^ 1 = 0`. -/
theorem C1_counterexample :
    Prime (2:Int) ∧ (0:Int) ≤ 2 ∧ (0:Int) ≤ 1 ∧
    hensel 2 2 1 = Except.ok (PyVal.int 1) ∧
    ¬ ((1:Int) ^ 2 % 2 ^ 1 = (2:Int) ^ 2 % 2 ^ 1) :=
  ⟨Int.prime_two, by norm_num, by norm_num, rfl, by decide⟩

/-- C1, amended: with the preconditions strengthened to `exponent >= 1` and
to requiring `gcd(root ^ 2 mod prime, prime) = 1` also when `prime == 2`
(the claim waived it there), `hensel` returns an integer `lifted` with
`lifted ^ 2 mod prime ^ exponent = root ^ 2 mod prime ^ exponent` and
`lifted ^ 2 mod prime ^ (exponent + 1) = square mod prime ^ (exponent + 1)`
where `square = root ^ 2 mod prime ^ exponent`. -/
theorem C1_amended_invariant (root p : Int) (e : Nat) (hp : Prime p) (h0 : 0 ≤ p)
    (hcop : Int.gcd (root ^ 2 % p) p = 1) (he : 1 ≤ e) :
    ∃ L : Int, hensel root p (e : Int) = Except.ok (PyVal.int L) ∧
      L ^ 2 % p ^ e = root ^ 2 % p ^ e ∧
      L ^ 2 % p ^ (e + 1) = (root ^ 2 % p ^ e) % p ^ (e + 1) := by
  have hp2 : 2 ≤ p := by
    have := (Int.prime_iff_natAbs_prime.mp hp).two_le
    omega
  have hndr : ¬ p ∣ root := by
    intro hd
    have hd2 : p ∣ root ^ 2 := dvd_pow hd (by norm_num)
    have hdm : p ∣ root ^ 2 % p := by
      rw [Int.emod_def]
      exact dvd_sub hd2 (dvd_mul_right p _)
    exact not_dvd_of_gcd_one hp2 hcop hdm
  obtain ⟨L, hL, _, h1, h2⟩ := hensel_lift_spec p root e hp h0
    (gcd_eq_one_of_prime_not_dvd hp h0 hndr) he
  exact ⟨L, hL, h1, h2⟩

/-- Witness for C1 as amended, at `root = 3`, `prime = 2`, `exponent = 2`. -/
theorem C1_amended_invariant_witness :
    hensel 3 2 ((2:Nat) : Int) = Except.ok (PyVal.int 7) ∧
    (7:Int) ^ 2 % 2 ^ 2 = 3 ^ 2 % 2 ^ 2 ∧
    (7:Int) ^ 2 % 2 ^ (2 + 1) = (3 ^ 2 % 2 ^ 2) % 2 ^ (2 + 1) := by
  obtain ⟨L, hL, h1, h2⟩ := C1_amended_invariant 3 2 2 Int.prime_two (by norm_num)
    (by decide) (by norm_num)
  have hE : hensel 3 2 ((2:Nat) : Int) = Except.ok (PyVal.int 7) := by decide
  rw [hE] at hL
  simp only [Except.ok.injEq, PyVal.int.injEq] at hL
  subst hL
  exact ⟨hE, h1, h2⟩

/-- C2: for every prime `p` in `{2,3,5,7,11,13,17,19,23,29,31}`, every
exponent `k < 5`, every residue `r` with `1 <= r < p ^ k` and
`r mod p != 0`, the round trip `pow(r, 2, p ^ k) == pow(hensel(r, p, k), 2,
p ^ (k + 1))` holds (the ranges are empty for `k = 0`). -/
theorem C2_round_trip (p : Int)
    (hp : p ∈ ([2, 3, 5, 7, 11, 13, 17, 19, 23, 29, 31] : List Int))
    (k : Nat) (hk : k < 5) (r : Int) (hr1 : 1 ≤ r) (hr2 : r < p ^ k)
    (hrp : r % p ≠ 0) :
    ∃ L : Int, hensel r p (k : Int) = Except.ok (PyVal.int L) ∧
      r ^ 2 % p ^ k = L ^ 2 % p ^ (k + 1) := by
  have hprime : Prime p ∧ 0 ≤ p := by
    fin_cases hp <;>
      exact ⟨by rw [Int.prime_iff_natAbs_prime]; norm_num, by norm_num⟩
  obtain ⟨hpp, hp0⟩ := hprime
  have hp2 : 2 ≤ p := by
    have := (Int.prime_iff_natAbs_prime.mp hpp).two_le
    omega
  cases k with
  | zero =>
    exfalso
    norm_num at hr2
    omega
  | succ j =>
    have hnd : ¬ p ∣ r := fun hd => hrp ((Int.dvd_iff_emod_eq_zero).mp hd)
    have hcop : Int.gcd r p = 1 := gcd_eq_one_of_prime_not_dvd hpp hp0 hnd
    obtain ⟨L, hL, _, h1, h2⟩ := hensel_lift_spec p r (j + 1) hpp hp0 hcop (by omega)
    refine ⟨L, hL, ?_⟩
    rw [h2]
    have h0s : 0 ≤ r ^ 2 % p ^ (j + 1) := Int.emod_nonneg _ (pow_ne_zero _ (by omega))
    have hlt : r ^ 2 % p ^ (j + 1) < p ^ (j + 1) :=
      Int.emod_lt_of_pos _ (pow_pos (by omega) _)
    have hle : (p:Int) ^ (j + 1) ≤ p ^ (j + 1 + 1) := by
      have hh : (p:Int) ^ (j + 1 + 1) = p ^ (j + 1) * p := by ring
      nlinarith [pow_pos (show (0:Int) < p by omega) (j + 1)]
    rw [Int.emod_eq_of_lt h0s (by omega)]

/-- Witness for C2, at `p = 2`, `k = 3`, `r = 3`. -/
theorem C2_round_trip_witness :
    hensel 3 2 ((3:Nat) : Int) = Except.ok (PyVal.int 7) ∧
    (3:Int) ^ 2 % 2 ^ 3 = 7 ^ 2 % 2 ^ (3 + 1) := by
  obtain ⟨L, hL, hrt⟩ := C2_round_trip 2 (by simp) 3 (by norm_num) 3 (by norm_num)
    (by norm_num) (by norm_num)
  have hE : hensel 3 2 ((3:Nat) : Int) = Except.ok (PyVal.int 7) := by decide
  rw [hE] at hL
  simp only [Except.ok.injEq, PyVal.int.injEq] at hL
  subst hL
  exact ⟨hE, hrt⟩

/-- C3, amended: chained lifting works when it starts from exponent 1
instead of exponent 0: for every prime `p` (including 2) and every root
coprime to `p`, the iteration `r_1 = root`, `r_{i+1} = hensel(r_i, p, i)`
completes without error at every step and satisfies
`pow(r_i, 2, p ^ i) == pow(r_{i+1}, 2, p ^ (i + 1))` at every level
`i = 1 + n`. -/
theorem C3_chain_amended (p root : Int) (hp : Prime p) (h0 : 0 ≤ p)
    (hcop : Int.gcd root p = 1) :
    ∀ n : Nat, ∃ a b : Int,
      henselChain p root 1 n = Except.ok (PyVal.int a) ∧
      henselChain p root 1 (n + 1) = Except.ok (PyVal.int b) ∧
      a ^ 2 % p ^ (1 + n) = b ^ 2 % p ^ (1 + n + 1) := by
  have hp2 : 2 ≤ p := by
    have := (Int.prime_iff_natAbs_prime.mp hp).two_le
    omega
  have hinv : ∀ n : Nat, ∃ a : Int,
      henselChain p root 1 n = Except.ok (PyVal.int a) ∧ Int.gcd a p = 1 := by
    intro n
    induction n with
    | zero => exact ⟨root, rfl, hcop⟩
    | succ m ih =>
      obtain ⟨a, ha, hgcd⟩ := ih
      obtain ⟨b, hb, hgcdb, _, _⟩ := hensel_lift_spec p a (1 + m) hp h0 hgcd (by omega)
      refine ⟨b, ?_, hgcdb⟩
      simp only [henselChain, ha, ebind_ok, henselPy]
      exact hb
  intro n
  obtain ⟨a, ha, hgcd⟩ := hinv n
  obtain ⟨b, hb, _, _, hlift⟩ := hensel_lift_spec p a (1 + n) hp h0 hgcd (by omega)
  have hchain : henselChain p root 1 (n + 1) = Except.ok (PyVal.int b) := by
    simp only [henselChain, ha, ebind_ok, henselPy]
    exact hb
  refine ⟨a, b, ha, hchain, ?_⟩
  rw [hlift]
  have h0s : 0 ≤ a ^ 2 % p ^ (1 + n) := Int.emod_nonneg _ (pow_ne_zero _ (by omega))
  have hlt : a ^ 2 % p ^ (1 + n) < p ^ (1 + n) :=
    Int.emod_lt_of_pos _ (pow_pos (by omega) _)
  have hle : (p:Int) ^ (1 + n) ≤ p ^ (1 + n + 1) := by
    have hh : (p:Int) ^ (1 + n + 1) = p ^ (1 + n) * p := by ring
    nlinarith [pow_pos (show (0:Int) < p by omega) (1 + n)]
  rw [Int.emod_eq_of_lt h0s (by omega)]

/-- C3 counterexample: for `p = 2` (prime) and `root = 3` (with
`root mod p != 0`), the very first step of the claimed iteration,
`hensel(3, 2, 0)`, raises a `TypeError` instead of completing, so the
chain starting from exponent 0 does not complete without error even for
`k = 1`. -/
theorem C3_counterexample :
    Prime (2:Int) ∧ (3:Int) % 2 ≠ 0 ∧
    henselChain 2 3 0 1 = Except.error (PyErr.typeError
      "pow() 3rd argument not allowed unless all arguments are integers") := by
  refine ⟨Int.prime_two, by decide, ?_⟩
  have hf2 : pyfloat 2 = Except.ok (((2:Int)) : ℚ) := by decide
  have hf3 : pyfloat 3 = Except.ok (((3:Int)) : ℚ) := by decide
  norm_num [henselChain, henselPy, hensel, pyPow, PyNum.lt, PyNum.toRat,
    PyNum.mul, PyNum.add, PyNum.sub, hf2, hf3, powCheckList]

/-- Witness for C3 as amended, at `p = 2`, `root = 3`, `n = 1`. -/
theorem C3_chain_amended_witness :
    henselChain 2 3 1 1 = Except.ok (PyVal.int 1) ∧
    henselChain 2 3 1 2 = Except.ok (PyVal.int 3) ∧
    (1:Int) ^ 2 % 2 ^ (1 + 1) = 3 ^ 2 % 2 ^ (1 + 1 + 1) := by
  obtain ⟨a, b, ha, hb, heq⟩ := C3_chain_amended 2 3 Int.prime_two (by norm_num)
    (by decide) 1
  have hA : henselChain 2 3 1 1 = Except.ok (PyVal.int 1) := by decide
  have hB : henselChain 2 3 1 2 = Except.ok (PyVal.int 3) := by decide
  rw [hA] at ha
  rw [hB] at hb
  simp only [Except.ok.injEq, PyVal.int.injEq] at ha hb
  subst ha
  subst hb
  exact ⟨hA, hB, heq⟩

theorem PyNum.mul_float_int {b : Int} (h : pyfloat b = Except.ok (b : ℚ)) (q : ℚ) :
    (PyNum.float q).mul (PyNum.int b) = Except.ok (PyNum.float (q * b)) := by
  simp [PyNum.mul, h]

theorem PyNum.sub_float_int {b : Int} (h : pyfloat b = Except.ok (b : ℚ)) (q : ℚ) :
    (PyNum.float q).sub (PyNum.int b) = Except.ok (PyNum.float (q - b)) := by
  simp [PyNum.sub, h]

theorem PyNum.add_int_float {a : Int} (h : pyfloat a = Except.ok (a : ℚ)) (q : ℚ) :
    (PyNum.int a).add (PyNum.float q) = Except.ok (PyNum.float (a + q)) := by
  simp [PyNum.add, h]

theorem PyNum.sub_int_float {a : Int} (h : pyfloat a = Except.ok (a : ℚ)) (q : ℚ) :
    (PyNum.int a).sub (PyNum.float q) = Except.ok (PyNum.float (a - q)) := by
  simp [PyNum.sub, h]

@[simp]
theorem PyNum.add_float_float (q r : ℚ) :
    (PyNum.float q).add (PyNum.float r) = Except.ok (PyNum.float (q + r)) := rfl

@[simp]
theorem PyNum.lt_int_float (a : Int) (q : ℚ) :
    (PyNum.int a).lt (PyNum.float q) ↔ (a : ℚ) < q := Iff.rfl

@[simp]
theorem powCheckList_nil (m1 m2 : Int) :
    powCheckList m1 m2 [] = Except.ok PyVal.none := rfl

@[simp]
theorem powCheckList_float (m1 m2 : Int) (q : ℚ) (rest : List PyNum) :
    powCheckList m1 m2 (PyNum.float q :: rest) =
      Except.error (PyErr.typeError
        "pow() 3rd argument not allowed unless all arguments are integers") := rfl

/-- C4: in the `prime == 2` branch with `exponent = f + 2 >= 2`, for every
valid (odd) `root` the branch constructs exactly two candidates (the pair
`cands root f`), at least one of them satisfies
`pow(c, 2, 2 ^ exponent) == pow(c, 2, 2 ^ (exponent + 1))`, the first
passing candidate in order is returned, and the fall-through returning
`None` is never reached. -/
theorem C4_first_candidate (root : Int) (f : Nat) (hodd : Odd root) :
    ∃ c₁ c₂ : Int, cands root f = [c₁, c₂] ∧
      (c₁ ^ 2 % 2 ^ (f + 2) = c₁ ^ 2 % 2 ^ (f + 3) ∨
       c₂ ^ 2 % 2 ^ (f + 2) = c₂ ^ 2 % 2 ^ (f + 3)) ∧
      hensel root 2 ((f : Int) + 2) = Except.ok (PyVal.int
        (if c₁ ^ 2 % 2 ^ (f + 2) = c₁ ^ 2 % 2 ^ (f + 3) then c₁ else c₂)) ∧
      hensel root 2 ((f : Int) + 2) ≠ Except.ok PyVal.none := by
  obtain ⟨c₁, c₂, t, hc, ht, hsum, ⟨k₁, e₁, he₁, hc₁⟩, ⟨k₂, e₂, he₂, hc₂⟩⟩ :=
    cands_pair root f
  have hodd₁ : Odd c₁ := odd_of_shift he₁ hc₁ hodd
  have hm1 : ((2:Int) ^ (f + 2)) ≠ 0 := by positivity
  have hm2 : ((2:Int) ^ (f + 3)) ≠ 0 := by positivity
  have heq : hensel root 2 ((f : Int) + 2) =
      powCheckList (2 ^ (f + 2)) (2 ^ (f + 3)) [PyNum.int c₁, PyNum.int c₂] := by
    rw [hensel_two_eq, hc]
    rfl
  rw [powCheckList_pair _ _ _ _ hm1 hm2] at heq
  have hpass := one_passes hodd₁ ht hsum
  have hret : hensel root 2 ((f : Int) + 2) = Except.ok (PyVal.int
      (if c₁ ^ 2 % 2 ^ (f + 2) = c₁ ^ 2 % 2 ^ (f + 3) then c₁ else c₂)) := by
    by_cases hp1 : c₁ ^ 2 % 2 ^ (f + 2) = c₁ ^ 2 % 2 ^ (f + 3)
    · rw [heq, if_pos hp1, if_pos hp1]
    · rcases hpass with hp | hp
      · exact absurd hp hp1
      · rw [heq, if_neg hp1, if_pos hp, if_neg hp1]
  refine ⟨c₁, c₂, hc, hpass, hret, ?_⟩
  rw [hret]
  simp

/-- Witness for C4, at `root = 3`, `exponent = 3` (so `f = 1`): the first
candidate `5` fails the consistency check and the second candidate `7` is
returned. -/
theorem C4_first_candidate_witness :
    cands 3 1 = [5, 7] ∧
    hensel 3 2 (((1:Nat) : Int) + 2) = Except.ok (PyVal.int 7) ∧
    ¬ ((5:Int) ^ 2 % 2 ^ (1 + 2) = 5 ^ 2 % 2 ^ (1 + 3)) ∧
    ((7:Int) ^ 2 % 2 ^ (1 + 2) = 7 ^ 2 % 2 ^ (1 + 3)) := by
  obtain ⟨c₁, c₂, hc, hpass, hret, hnone⟩ := C4_first_candidate 3 1 ⟨1, by norm_num⟩
  have hcv : cands 3 1 = [5, 7] := by decide
  rw [hcv] at hc
  have hc1 : c₁ = 5 := by
    injection hc with h1 h2
    exact h1.symm
  have hc2 : c₂ = 7 := by
    injection hc with h1 h2
    injection h2 with h3 h4
    exact h3.symm
  subst hc1
  subst hc2
  rw [if_neg (show ¬ ((5:Int) ^ 2 % 2 ^ (1 + 2) = 5 ^ 2 % 2 ^ (1 + 3)) by decide)] at hret
  exact ⟨hcv, hret, by decide, by decide⟩

/-- C7: `hensel(root, 2, 1) == 1` for every valid odd `root`. -/
theorem C7_exponent_one (root : Int) (hodd : Odd root) :
    hensel root 2 1 = Except.ok (PyVal.int 1) := rfl

/-- Witness for C7, at `root = 5`. -/
theorem C7_exponent_one_witness : hensel 5 2 1 = Except.ok (PyVal.int 1) :=
  C7_exponent_one 5 ⟨2, by norm_num⟩

/-- C10: for every integer `root` and `exponent >= 0`, the call
`hensel(root, 0, exponent)` passes validation (`0` is not `< 0`) but then
raises an uncaught `ZeroDivisionError` from the reduction modulo `m == 0`
inside `_inv`, rather than any documented type or value error (the result
being exactly this error excludes every other outcome). -/
theorem C10_prime_zero (root exponent : Int) (he : 0 ≤ exponent) :
    hensel root 0 exponent = Except.error PyErr.zeroDivisionError := by
  have h0a : ¬ ((0:Int) < 0) := by norm_num
  have h0b : ¬ (exponent < 0) := by omega
  have h0c : ¬ ((0:Int) = 2) := by norm_num
  simp only [hensel, if_neg h0a, if_neg h0b, if_neg h0c, _inv, egcd, pymod,
    if_pos rfl, if_true, ebind_error]

/-- Witness for C10, at `root = 5`, `exponent = 3`. -/
theorem C10_prime_zero_witness :
    hensel 5 0 3 = Except.error PyErr.zeroDivisionError :=
  C10_prime_zero 5 3 (by norm_num)

/-- C5: type validation is eager and ordered.  If `root` is not an integer
the type error names the type of `root`, regardless of `prime` and
`exponent`; otherwise if `prime` is not an integer the error names the type
of `prime`; otherwise if `exponent` is not an integer the error names the
type of `exponent`; and only when all three are integers does execution
reach the body (value checks and arithmetic). -/
theorem C5_type_errors (root prime exponent : PyVal) :
    (root.isInt = false → henselPy root prime exponent = Except.error (PyErr.typeError
      ("\x27" ++ typeName root ++ "\x27 object cannot be interpreted as an integer"))) ∧
    (root.isInt = true → prime.isInt = false →
      henselPy root prime exponent = Except.error (PyErr.typeError
      ("\x27" ++ typeName prime ++ "\x27 object cannot be interpreted as an integer"))) ∧
    (root.isInt = true → prime.isInt = true → exponent.isInt = false →
      henselPy root prime exponent = Except.error (PyErr.typeError
      ("\x27" ++ typeName exponent ++ "\x27 object cannot be interpreted as an integer"))) ∧
    (∀ r p e : Int, root = PyVal.int r → prime = PyVal.int p → exponent = PyVal.int e →
      henselPy root prime exponent = hensel r p e) := by
  cases root <;> cases prime <;> cases exponent <;>
    simp [henselPy, PyVal.isInt, typeName]

/-- Witness for C5: `hensel("abc", 7, 1)` raises the documented type error
naming `str`. -/
theorem C5_type_errors_witness :
    henselPy (PyVal.str "abc") (PyVal.int 7) (PyVal.int 1) =
      Except.error (PyErr.typeError
        "\x27str\x27 object cannot be interpreted as an integer") := by
  have h := (C5_type_errors (PyVal.str "abc") (PyVal.int 7) (PyVal.int 1)).1 rfl
  rw [h]
  rfl

theorem powCheckList_valueError (m1 m2 : Int) (l : List PyNum) (msg : String)
    (h : powCheckList m1 m2 l = Except.error (PyErr.valueError msg)) :
    msg = "pow() 3rd argument cannot be 0" := by
  induction l with
  | nil => simp [powCheckList] at h
  | cons c rest ih =>
    cases c with
    | float q => simp [powCheckList] at h
    | int n =>
      rw [powCheckList] at h
      split_ifs at h with hA hB hC
      · simp only [Except.error.injEq, PyErr.valueError.injEq] at h
        exact h.symm
      · simp only [Except.error.injEq, PyErr.valueError.injEq] at h
        exact h.symm
      · exact ih h

theorem ebind_eq_error {α β : Type} {x : Except PyErr α} {f : α → Except PyErr β}
    {e : PyErr} (h : Except.bind x f = Except.error e) :
    x = Except.error e ∨ ∃ v, x = Except.ok v ∧ f v = Except.error e := by
  cases x with
  | ok v => rw [ebind_ok] at h; exact Or.inr ⟨v, rfl, h⟩
  | error e2 =>
    rw [ebind_error] at h
    injection h with h2
    exact Or.inl (by rw [h2])

theorem pyfloat_error {n : Int} {e : PyErr} (h : pyfloat n = Except.error e) :
    e = PyErr.overflowError "int too large to convert to float" := by
  rw [pyfloat] at h
  split_ifs at h
  all_goals simp only [Except.error.injEq] at h
  all_goals exact h.symm

theorem pynum_add_error {a b : PyNum} {e : PyErr} (h : a.add b = Except.error e) :
    e = PyErr.overflowError "int too large to convert to float" := by
  cases a <;> cases b <;> simp only [PyNum.add] at h
  · exact absurd h (by simp)
  · rcases ebind_eq_error h with h1 | ⟨v, hv, h2⟩
    · exact pyfloat_error h1
    · exact absurd h2 (by simp)
  · rcases ebind_eq_error h with h1 | ⟨v, hv, h2⟩
    · exact pyfloat_error h1
    · exact absurd h2 (by simp)
  · exact absurd h (by simp)

theorem pynum_sub_error {a b : PyNum} {e : PyErr} (h : a.sub b = Except.error e) :
    e = PyErr.overflowError "int too large to convert to float" := by
  cases a <;> cases b <;> simp only [PyNum.sub] at h
  · exact absurd h (by simp)
  · rcases ebind_eq_error h with h1 | ⟨v, hv, h2⟩
    · exact pyfloat_error h1
    · exact absurd h2 (by simp)
  · rcases ebind_eq_error h with h1 | ⟨v, hv, h2⟩
    · exact pyfloat_error h1
    · exact absurd h2 (by simp)
  · exact absurd h (by simp)

theorem pynum_mul_error {a b : PyNum} {e : PyErr} (h : a.mul b = Except.error e) :
    e = PyErr.overflowError "int too large to convert to float" := by
  cases a <;> cases b <;> simp only [PyNum.mul] at h
  · exact absurd h (by simp)
  · rcases ebind_eq_error h with h1 | ⟨v, hv, h2⟩
    · exact pyfloat_error h1
    · exact absurd h2 (by simp)
  · rcases ebind_eq_error h with h1 | ⟨v, hv, h2⟩
    · exact pyfloat_error h1
    · exact absurd h2 (by simp)
  · exact absurd h (by simp)

theorem hensel_valueError_msg (r p e : Int) (hp : ¬ p < 0) (he : ¬ e < 0) (msg : String)
    (h : hensel r p e = Except.error (PyErr.valueError msg)) :
    msg = "pow() 3rd argument cannot be 0" := by
  simp only [hensel] at h
  rw [if_neg hp, if_neg he] at h
  by_cases hp2 : p = 2
  · rw [if_pos hp2] at h
    by_cases he1 : e = 1
    · rw [if_pos he1] at h
      simp at h
    · rw [if_neg he1] at h
      rcases ebind_eq_error h with h1 | ⟨ptem1, hok1, h⟩
      · exact absurd (pynum_mul_error h1) (by simp)
      · rcases ebind_eq_error h with h2 | ⟨cs, hok2, h3⟩
        · split_ifs at h2
          · rcases ebind_eq_error h2 with h4 | ⟨c2, hv4, h5⟩
            · exact absurd (pynum_sub_error h4) (by simp)
            · exact absurd h5 (by simp)
          · rcases ebind_eq_error h2 with h4 | ⟨c2, hv4, h5⟩
            · exact absurd (pynum_add_error h4) (by simp)
            · exact absurd h5 (by simp)
          · rcases ebind_eq_error h2 with h4 | ⟨bd, hv4, h5⟩
            · exact absurd (pynum_add_error h4) (by simp)
            · split_ifs at h5
              · rcases ebind_eq_error h5 with h6 | ⟨off, hv6, h7⟩
                · exact absurd (pynum_sub_error h6) (by simp)
                · rcases ebind_eq_error h7 with h8 | ⟨c1, hv8, h9⟩
                  · exact absurd (pynum_add_error h8) (by simp)
                  · exact absurd h9 (by simp)
              · rcases ebind_eq_error h5 with h6 | ⟨sh, hv6, h7⟩
                · exact absurd (pynum_add_error h6) (by simp)
                · rcases ebind_eq_error h7 with h8 | ⟨c1, hv8, h9⟩
                  · exact absurd (pynum_sub_error h8) (by simp)
                  · exact absurd h9 (by simp)
        · exact powCheckList_valueError _ _ _ _ h3
  · rw [if_neg hp2] at h
    by_cases hp0 : p = 0
    · subst hp0
      simp [_inv, pymod, egcd] at h
    · have hq0 : p ^ e.toNat ≠ 0 := pow_ne_zero _ hp0
      have hpq0 : p * p ^ e.toNat ≠ 0 := mul_ne_zero hp0 hq0
      rw [inv_ok hp0, ebind_ok, inv_ok hp0, ebind_ok, pymod_ok hp0, ebind_ok,
        pypow3_ok hq0, ebind_ok, pyfloordiv_ok hq0, ebind_ok, pymod_ok hp0, ebind_ok,
        pymod_ok hp0, ebind_ok, pymod_ok hpq0, ebind_ok] at h
      simp at h

/-- C6: for integer arguments, `hensel` raises the value error
`prime must be a positive integer` exactly when `prime < 0` (so `prime = 0`
passes), and, when `prime >= 0`, raises
`exponent must be a nonnegative integer` exactly when `exponent < 0`; the
first equivalence holding irrespective of `exponent` shows the prime check
precedes the exponent check. -/
theorem C6_value_errors (root prime exponent : Int) :
    (hensel root prime exponent =
        Except.error (PyErr.valueError "prime must be a positive integer") ↔ prime < 0) ∧
    (0 ≤ prime →
      (hensel root prime exponent =
        Except.error (PyErr.valueError "exponent must be a nonnegative integer") ↔
          exponent < 0)) := by
  constructor
  · constructor
    · intro h
      by_contra hp
      by_cases he : exponent < 0
      · simp only [hensel] at h
        rw [if_neg hp, if_pos he] at h
        exact absurd h (by decide)
      · have := hensel_valueError_msg root prime exponent hp he _ h
        exact absurd this (by decide)
    · intro h
      simp only [hensel]
      rw [if_pos h]
  · intro h0
    constructor
    · intro h
      by_contra he
      have hp : ¬ prime < 0 := by omega
      have := hensel_valueError_msg root prime exponent hp he _ h
      exact absurd this (by decide)
    · intro he
      have hp : ¬ prime < 0 := by omega
      simp only [hensel]
      rw [if_neg hp, if_pos he]

/-- Witness for C6, at `hensel(2, -1, 5)` and `hensel(2, 7, -1)`. -/
theorem C6_value_errors_witness :
    hensel 2 (-1) 5 = Except.error (PyErr.valueError "prime must be a positive integer") ∧
    hensel 2 7 (-1) =
      Except.error (PyErr.valueError "exponent must be a nonnegative integer") :=
  ⟨(C6_value_errors 2 (-1) 5).1.mpr (by norm_num),
   ((C6_value_errors 2 7 (-1)).2 (by norm_num)).mpr (by norm_num)⟩

/-- C9 counterexample: the odd integer `root = 2 ^ 1024 + 1` (written as a
literal, since it must exceed the double range) is too large to convert to
a Python float, so `hensel(root, 2, 0)` raises `OverflowError` while
constructing the float candidate `2.5 - root`, before ever reaching the
three-argument `pow` whose `TypeError` the claim asserts. -/
theorem C9_counterexample :
    (179769313486231590772930519078902473361797697894230657273430081157732675805500963132708477322407536021120113879871393357658789768814416622492847430639474124377767893424865485276302219601246094119453082952085005768838150682342462881473913110540827237163350510684586298239947245938479716304835356329624224137217 : Int)
      = 2 ^ 1024 + 1 ∧
    Odd (179769313486231590772930519078902473361797697894230657273430081157732675805500963132708477322407536021120113879871393357658789768814416622492847430639474124377767893424865485276302219601246094119453082952085005768838150682342462881473913110540827237163350510684586298239947245938479716304835356329624224137217 : Int) ∧
    henselPy
      (PyVal.int 179769313486231590772930519078902473361797697894230657273430081157732675805500963132708477322407536021120113879871393357658789768814416622492847430639474124377767893424865485276302219601246094119453082952085005768838150682342462881473913110540827237163350510684586298239947245938479716304835356329624224137217)
      (PyVal.int 2) (PyVal.int 0) =
      Except.error (PyErr.overflowError "int too large to convert to float") := by
  refine ⟨?_, ?_, ?_⟩
  · have h1 : ((2:Int) ^ 1024) = (2 ^ 128) ^ 8 := by
      rw [← pow_mul]
    rw [h1]
    norm_num
  · rw [Int.odd_iff]
    decide
  · show hensel
        179769313486231590772930519078902473361797697894230657273430081157732675805500963132708477322407536021120113879871393357658789768814416622492847430639474124377767893424865485276302219601246094119453082952085005768838150682342462881473913110540827237163350510684586298239947245938479716304835356329624224137217
        2 0 = _
    have hf2 : pyfloat 2 = Except.ok (((2:Int)) : ℚ) := by decide
    have hfR : pyfloat
        179769313486231590772930519078902473361797697894230657273430081157732675805500963132708477322407536021120113879871393357658789768814416622492847430639474124377767893424865485276302219601246094119453082952085005768838150682342462881473913110540827237163350510684586298239947245938479716304835356329624224137217
        = Except.error (PyErr.overflowError "int too large to convert to float") :=
      pyfloat_overflow (by decide)
    simp only [hensel, pyPow, PyNum.mul, PyNum.add, PyNum.sub,
      if_neg (show ¬ ((2:Int) < 0) by norm_num),
      if_neg (show ¬ ((0:Int) < 0) by norm_num), if_pos rfl, if_true,
      if_neg (show ¬ ((0:Int) = 1) by norm_num),
      if_neg (show ¬ ((0:Int) ≤ 0 - 2) by norm_num),
      if_neg (show ¬ ((0:Int) ≤ 0 - 1) by norm_num),
      Int.toNat_zero, pow_zero, one_mul, hfR, hf2, ebind_ok, ebind_error, ite_self]

/-- C9, amended: for every odd integer `root` small enough to convert to a
Python float (`|root| < 2 ^ 1024 - 2 ^ 970`), the call `hensel(root, 2, 0)`
passes all documented validation checks (the arguments are integers,
`2 >= 0` and `0 >= 0`) but does not return an integer:
`prime ** (exponent - 2)` evaluates to the float `0.25`, a derived
candidate is therefore a float, and the three-argument `pow` in the
candidate check raises a `TypeError`.  (For odd roots of larger magnitude
the call instead raises `OverflowError` from that same candidate
construction, see the counterexample.) -/
theorem C9_exponent_zero_type_error (root : Int) (hodd : Odd root)
    (hrange : root.natAbs < 2 ^ 1024 - 2 ^ 970) :
    pyPow 2 ((0:Int) - 2) = PyNum.float (1 / 4) ∧
    henselPy (PyVal.int root) (PyVal.int 2) (PyVal.int 0) =
      Except.error (PyErr.typeError
        "pow() 3rd argument not allowed unless all arguments are integers") := by
  have h14 : (((2:Int)) : ℚ) ^ ((0:Int) - 2) = 1 / 4 := by norm_num
  have h12 : (((2:Int)) : ℚ) ^ ((0:Int) - 1) = 1 / 2 := by norm_num
  have hfr : pyfloat root = Except.ok ((root : Int) : ℚ) :=
    pyfloat_ok (by rw [floatConvLimit_eq]; exact hrange)
  have hf2 : pyfloat 2 = Except.ok (((2:Int)) : ℚ) := by decide
  constructor
  · rw [pyPow, if_neg (by norm_num)]
    rw [h14]
  · show hensel root 2 0 = _
    have h0a : ¬ ((2:Int) < 0) := by norm_num
    have h0b : ¬ ((0:Int) < 0) := by norm_num
    have h0c : ¬ ((0:Int) = 1) := by norm_num
    have hne2 : ¬ ((0:Int) ≤ 0 - 2) := by norm_num
    have hne1 : ¬ ((0:Int) ≤ 0 - 1) := by norm_num
    have hsq : root ^ 2 % 2 = 1 := Int.odd_iff.mp hodd.pow
    simp only [hensel, if_neg h0a, if_neg h0b, if_pos rfl, if_neg h0c, if_true, pyPow,
      if_neg hne2, if_neg hne1, PyNum.mul, PyNum.add, PyNum.sub, hfr, hf2, ebind_ok,
      PyNum.lt_int_float, h14, h12, Int.toNat_zero, pow_zero]
    norm_num
    rcases le_or_lt root 0 with hr | hr
    · have hrq : (root : ℚ) ≤ 0 := by exact_mod_cast hr
      rw [if_pos (show (root:ℚ) < 1/4 by linarith)]
      rw [ebind_ok, powCheckList]
      rw [if_neg (by norm_num), if_neg (by norm_num),
        if_neg (by simp [Int.emod_one, hsq]), powCheckList_float]
    · have hrq : (1 : ℚ) ≤ (root : ℚ) := by exact_mod_cast hr
      rw [if_neg (show ¬ ((root:ℚ) < 1/4) by linarith),
        if_neg (show ¬ ((root:ℚ) < 1/2) by linarith),
        if_neg (show ¬ ((root:ℚ) < 3/4) by linarith), hf2]
      simp only [ebind_ok, hfr, powCheckList_float]

/-- Witness for C9 as amended, at `root = 7`. -/
theorem C9_exponent_zero_type_error_witness :
    henselPy (PyVal.int 7) (PyVal.int 2) (PyVal.int 0) =
      Except.error (PyErr.typeError
        "pow() 3rd argument not allowed unless all arguments are integers") :=
  (C9_exponent_zero_type_error 7 ⟨3, by norm_num⟩
    (by rw [← floatConvLimit_eq]; decide)).2
